import Mathlib

/-!
# Teensy Audio oscillator: `synth_waveform.h`

A shallow embedding of the inline member functions of `AudioSynthWaveform`,
`AudioSynthWaveformModulated` and of the declared state of
`BandLimitedWaveform`.

Conventions of the embedding

* A C `float`/`double` value is a rational number: the comparisons, the
  subtraction `angle - 360.0` and the products by a power of two are exact on
  finite floats, and an infinite input takes the same branch as a large finite
  one.  The rounding of a product by a non-dyadic constant is outside the model.
* The argument of `amplitude` is a `CFloat`: a finite value, an infinity or NaN.
  Every comparison with NaN is false, so NaN passes both guards of the clamp and
  reaches the conversion to `int32_t`.
* A `uint32_t` is a `Nat` below `2^32`, an `int32_t`/`int16_t`/`short` an `Int`.
* A conversion of a floating value to an integer type truncates toward zero.
  When the truncated value is not representable the C standard leaves the
  conversion undefined; the embedding takes the result from the `Platform`.
* What the header uses but does not define (`AUDIO_SAMPLE_RATE_EXACT`, the
  bodies of the `BandLimitedWaveform` member functions) is a parameter.
-/

namespace TeensyAudio

/-! ## Waveform types -/

def WAVEFORM_SINE : Int := 0
def WAVEFORM_SAWTOOTH : Int := 1
def WAVEFORM_SQUARE : Int := 2
def WAVEFORM_TRIANGLE : Int := 3
def WAVEFORM_ARBITRARY : Int := 4
def WAVEFORM_PULSE : Int := 5
def WAVEFORM_SAWTOOTH_REVERSE : Int := 6
def WAVEFORM_SAMPLE_HOLD : Int := 7
def WAVEFORM_TRIANGLE_VARIABLE : Int := 8
def WAVEFORM_BANDLIMIT_SAWTOOTH : Int := 9
def WAVEFORM_BANDLIMIT_SAWTOOTH_REVERSE : Int := 10
def WAVEFORM_BANDLIMIT_SQUARE : Int := 11

/-! ## Floating point to integer conversions -/

/-- A value of the C type `float`: a finite number, an infinity, or NaN. -/
inductive CFloat where
  | finite (q : ℚ)
  | posInf
  | negInf
  | nan
  deriving DecidableEq

/-- The comparison `x < c` of a float with a finite constant; false for NaN. -/
def CFloat.lt (x : CFloat) (c : ℚ) : Bool :=
  match x with
  | .finite q => decide (q < c)
  | .posInf => false
  | .negInf => true
  | .nan => false

/-- The comparison `x > c` of a float with a finite constant; false for NaN. -/
def CFloat.gt (x : CFloat) (c : ℚ) : Bool :=
  match x with
  | .finite q => decide (q > c)
  | .posInf => true
  | .negInf => false
  | .nan => false

/-- The product `x * c` of a float with a finite constant. -/
def CFloat.mul (x : CFloat) (c : ℚ) : CFloat :=
  match x with
  | .finite q => .finite (q * c)
  | .posInf => if 0 < c then .posInf else if c < 0 then .negInf else .nan
  | .negInf => if 0 < c then .negInf else if c < 0 then .posInf else .nan
  | .nan => .nan

/-- What the build supplies and the header leaves open: the sample rate macro of
`AudioStream.h`, the result of a float-to-integer conversion whose truncated
value does not fit the destination type, and the result of converting an
infinity or NaN to `int32_t`. -/
structure Platform where
  AUDIO_SAMPLE_RATE_EXACT : ℚ
  outOfRangeUInt32 : ℚ → Nat
  outOfRangeInt32 : ℚ → Int
  outOfRangeInt16 : ℚ → Int
  nonFiniteInt32 : CFloat → Int

/-- Truncation toward zero, the rounding of a C float-to-integer conversion. -/
def truncToZero (x : ℚ) : Int :=
  if 0 ≤ x then ⌊x⌋ else ⌈x⌉

/-- The specification's clamp of `n` to the closed interval from `lo` to `hi`. -/
def clamp (n lo hi : ℚ) : ℚ :=
  max lo (min n hi)

/-- Conversion `(uint32_t) x` of a floating value. -/
def toUInt32 (P : Platform) (x : ℚ) : Nat :=
  if 0 ≤ truncToZero x ∧ truncToZero x < 4294967296 then (truncToZero x).toNat
  else P.outOfRangeUInt32 x % 4294967296

/-- Conversion `(int32_t) x` of a floating value. -/
def toInt32 (P : Platform) (x : ℚ) : Int :=
  if -2147483648 ≤ truncToZero x ∧ truncToZero x < 2147483648 then truncToZero x
  else Int.bmod (P.outOfRangeInt32 x) 4294967296

/-- Conversion `(int32_t) x` of a float that may be an infinity or NaN: no
integer is the truncation of such a value, so the result is the platform's. -/
def floatToInt32 (P : Platform) (x : CFloat) : Int :=
  match x with
  | .finite q => toInt32 P q
  | .posInf => Int.bmod (P.nonFiniteInt32 .posInf) 4294967296
  | .negInf => Int.bmod (P.nonFiniteInt32 .negInf) 4294967296
  | .nan => Int.bmod (P.nonFiniteInt32 .nan) 4294967296

/-- The specification's clamp of a float to the closed interval from `lo` to
`hi`; NaN has no clamped value. -/
def clampFloat (n : CFloat) (lo hi : ℚ) : Option ℚ :=
  match n with
  | .finite q => some (clamp q lo hi)
  | .posInf => some hi
  | .negInf => some lo
  | .nan => none

/-- Conversion `(int16_t) x` of a floating value. -/
def toInt16 (P : Platform) (x : ℚ) : Int :=
  if -32768 ≤ truncToZero x ∧ truncToZero x < 32768 then truncToZero x
  else Int.bmod (P.outOfRangeInt16 x) 65536

/-- A platform whose out-of-range conversions saturate, at a 44100 Hz sample
rate (the rate of the scenarios in section 8 of the specification). -/
def saturatingPlatform : Platform where
  AUDIO_SAMPLE_RATE_EXACT := 44100
  outOfRangeUInt32 := fun x => if x < 0 then 0 else 4294967295
  outOfRangeInt32 := fun x => if x < 0 then -2147483648 else 2147483647
  outOfRangeInt16 := fun x => if x < 0 then -32768 else 32767
  nonFiniteInt32 := fun x =>
    match x with
    | .negInf => -2147483648
    | .nan => 0
    | _ => 2147483647

/-- A platform on which every float-to-`int32_t` conversion without a defined
result gives `-2147483648`, as the conversion instructions of x86 do, at a
44100 Hz sample rate. -/
def indefinitePlatform : Platform where
  AUDIO_SAMPLE_RATE_EXACT := 44100
  outOfRangeUInt32 := fun _ => 0
  outOfRangeInt32 := fun _ => -2147483648
  outOfRangeInt16 := fun _ => 0
  nonFiniteInt32 := fun _ => -2147483648

/-! ## The band-limited core as seen from the oscillator classes -/

/-- The member functions of `BandLimitedWaveform` that the oscillator classes
call.  The header only declares them, so the oscillators are embedded over any
core type `B` with these operations. -/
structure BandLimitedOps (B : Type) where
  /-- The constructor `BandLimitedWaveform (void)`. -/
  construct : B
  /-- The member `void init_sawtooth (uint32_t freq_word)`. -/
  init_sawtooth : Nat → B → B
  /-- The member `void init_square (uint32_t freq_word)`. -/
  init_square : Nat → B → B

/-- One call into the band-limited core, with the frequency word it received. -/
inductive CoreCall where
  | init_sawtooth (freq_word : Nat)
  | init_square (freq_word : Nat)
  deriving DecidableEq, Repr

/-- The frequency word a call into the core carries. -/
def CoreCall.freq_word : CoreCall → Nat
  | .init_sawtooth w => w
  | .init_square w => w

/-- The core that only records, in order, the calls made into it. -/
def recordingCore : BandLimitedOps (List CoreCall) where
  construct := []
  init_sawtooth := fun w log => log ++ [CoreCall.init_sawtooth w]
  init_square := fun w log => log ++ [CoreCall.init_square w]

/-! ## `class AudioSynthWaveform` -/

/-- The private state of `AudioSynthWaveform` (header lines 161-171).  `arbdata`
is the address of the caller's table, `none` for `NULL`. -/
structure AudioSynthWaveform (B : Type) where
  phase_accumulator : Nat
  phase_increment : Nat
  phase_offset : Nat
  magnitude : Int
  pulse_width : Nat
  arbdata : Option Nat
  sample : Int
  tone_type : Int
  tone_offset : Int
  band_limit_waveform : B

namespace AudioSynthWaveform

variable {B : Type}

/-- The constructor's member initialiser list (header lines 93-98). -/
def new (ops : BandLimitedOps B) : AudioSynthWaveform B where
  phase_accumulator := 0
  phase_increment := 0
  phase_offset := 0
  magnitude := 0
  pulse_width := 0x40000000
  arbdata := none
  sample := 0
  tone_type := WAVEFORM_SINE
  tone_offset := 0
  band_limit_waveform := ops.construct

/-- Member `void frequency(float freq)` (header lines 100-108). -/
def frequency (P : Platform) (freq : ℚ) (s : AudioSynthWaveform B) : AudioSynthWaveform B :=
  let freq :=
    if freq < 0 then 0
    else if freq > P.AUDIO_SAMPLE_RATE_EXACT / 2 then P.AUDIO_SAMPLE_RATE_EXACT / 2
    else freq
  let phase_increment := toUInt32 P (freq * (4294967296 / P.AUDIO_SAMPLE_RATE_EXACT))
  if phase_increment > 0x7FFE0000 then { s with phase_increment := 0x7FFE0000 }
  else { s with phase_increment := phase_increment }

/-- The angle that reaches the assignment on line 116 of `phase`, or `none` when
the `return` on line 114 is taken (header lines 110-115). -/
def phaseAngle (angle : ℚ) : Option ℚ :=
  if angle < 0 then some 0
  else if angle > 360 then
    if angle - 360 ≥ 360 then none else some (angle - 360)
  else some angle

/-- Member `void phase(float angle)` (header lines 109-117).  The `return` on
line 114 leaves the object as it was. -/
def phase (P : Platform) (angle : ℚ) (s : AudioSynthWaveform B) : AudioSynthWaveform B :=
  match phaseAngle angle with
  | none => s
  | some angle => { s with phase_offset := toUInt32 P (angle * (4294967296 / 360)) }

/-- Member `void amplitude(float n)` (header lines 118-125). -/
def amplitude (P : Platform) (n : CFloat) (s : AudioSynthWaveform B) : AudioSynthWaveform B :=
  let n := if n.lt 0 then CFloat.finite 0 else if n.gt 1 then CFloat.finite 1 else n
  { s with magnitude := floatToInt32 P (n.mul 65536) }

/-- Member `void offset(float n)` (header lines 126-133). -/
def offset (P : Platform) (n : ℚ) (s : AudioSynthWaveform B) : AudioSynthWaveform B :=
  let n := if n < -1 then -1 else if n > 1 then 1 else n
  { s with tone_offset := toInt16 P (n * 32767) }

/-- The floating value `n * 4294967296.0` that `pulseWidth` converts to the
`uint32_t` field, after the clamp of lines 135-139. -/
def pulseWidthValue (n : ℚ) : ℚ :=
  let n := if n < 0 then 0 else if n > 1 then 1 else n
  n * 4294967296

/-- Member `void pulseWidth(float n)` (header lines 134-141). -/
def pulseWidth (P : Platform) (n : ℚ) (s : AudioSynthWaveform B) : AudioSynthWaveform B :=
  { s with pulse_width := toUInt32 P (pulseWidthValue n) }

/-- Member `void begin(short t_type)` (header lines 142-149). -/
def begin (ops : BandLimitedOps B) (t_type : Int) (s : AudioSynthWaveform B) :
    AudioSynthWaveform B :=
  let s := { s with phase_offset := 0 }
  let s := { s with tone_type := t_type }
  let s :=
    if t_type = WAVEFORM_BANDLIMIT_SQUARE then
      { s with band_limit_waveform := ops.init_square s.phase_increment s.band_limit_waveform }
    else s
  if t_type = WAVEFORM_BANDLIMIT_SAWTOOTH ∨ t_type = WAVEFORM_BANDLIMIT_SAWTOOTH_REVERSE then
    { s with band_limit_waveform := ops.init_sawtooth s.phase_increment s.band_limit_waveform }
  else s

/-- Member `void begin(float t_amp, float t_freq, short t_type)` (header lines 150-155). -/
def begin_amp_freq_type (P : Platform) (ops : BandLimitedOps B) (t_amp : CFloat) (t_freq : ℚ)
    (t_type : Int) (s : AudioSynthWaveform B) : AudioSynthWaveform B :=
  let s := amplitude P t_amp s
  let s := frequency P t_freq s
  let s := { s with phase_offset := 0 }
  begin ops t_type s

/-- Member `void arbitraryWaveform(const int16_t *data, float maxFreq)` (header lines 156-158). -/
def arbitraryWaveform (data : Option Nat) (_maxFreq : ℚ) (s : AudioSynthWaveform B) :
    AudioSynthWaveform B :=
  { s with arbdata := data }

/-- A call of one of the configuration members of `AudioSynthWaveform`. -/
inductive Call where
  | frequency (freq : ℚ)
  | phase (angle : ℚ)
  | amplitude (n : CFloat)
  | offset (n : ℚ)
  | pulseWidth (n : ℚ)
  | arbitraryWaveform (data : Option Nat) (maxFreq : ℚ)
  | begin (t_type : Int)
  | begin_amp_freq_type (t_amp : CFloat) (t_freq : ℚ) (t_type : Int)

/-- The object after one call. -/
def step (P : Platform) (ops : BandLimitedOps B) (s : AudioSynthWaveform B) :
    Call → AudioSynthWaveform B
  | .frequency freq => frequency P freq s
  | .phase angle => phase P angle s
  | .amplitude n => amplitude P n s
  | .offset n => offset P n s
  | .pulseWidth n => pulseWidth P n s
  | .arbitraryWaveform data maxFreq => arbitraryWaveform data maxFreq s
  | .begin t_type => begin ops t_type s
  | .begin_amp_freq_type t_amp t_freq t_type => begin_amp_freq_type P ops t_amp t_freq t_type s

/-- The object reached from the constructor by a sequence of calls. -/
def run (P : Platform) (ops : BandLimitedOps B) (calls : List Call) : AudioSynthWaveform B :=
  calls.foldl (step P ops) (new ops)

/-- The property carried along a run over the recording core: the stored
frequency word and every recorded frequency word respect the ceiling. -/
def Clamped (r : AudioSynthWaveform (List CoreCall)) : Prop :=
  r.phase_increment ≤ 0x7FFE0000 ∧ ∀ c ∈ r.band_limit_waveform, c.freq_word ≤ 0x7FFE0000

end AudioSynthWaveform

/-! ## `class AudioSynthWaveformModulated` -/

/-- The private state of `AudioSynthWaveformModulated` (header lines 245-256).
Pointers are addresses, `none` for `NULL`. -/
structure AudioSynthWaveformModulated (B : Type) where
  inputQueueArray : Option Nat × Option Nat
  phase_accumulator : Nat
  phase_increment : Nat
  modulation_factor : Nat
  magnitude : Int
  arbdata : Option Nat
  phasedata : List Nat
  sample : Int
  tone_offset : Int
  tone_type : Nat
  modulation_type : Nat
  band_limit_waveform : B

namespace AudioSynthWaveformModulated

variable {B : Type}

/-- The constructor's member initialiser list (header lines 178-182).  It leaves
`inputQueueArray` and `phasedata` as they are found, so both are arguments. -/
def new (ops : BandLimitedOps B) (inputQueueArray : Option Nat × Option Nat)
    (phasedata : List Nat) : AudioSynthWaveformModulated B where
  inputQueueArray := inputQueueArray
  phase_accumulator := 0
  phase_increment := 0
  modulation_factor := 32768
  magnitude := 0
  arbdata := none
  phasedata := phasedata
  sample := 0
  tone_offset := 0
  tone_type := WAVEFORM_SINE.toNat
  modulation_type := 0
  band_limit_waveform := ops.construct

/-- Member `void frequency(float freq)` (header lines 184-192). -/
def frequency (P : Platform) (freq : ℚ) (s : AudioSynthWaveformModulated B) :
    AudioSynthWaveformModulated B :=
  let freq :=
    if freq < 0 then 0
    else if freq > P.AUDIO_SAMPLE_RATE_EXACT / 2 then P.AUDIO_SAMPLE_RATE_EXACT / 2
    else freq
  let phase_increment := toUInt32 P (freq * (4294967296 / P.AUDIO_SAMPLE_RATE_EXACT))
  if phase_increment > 0x7FFE0000 then { s with phase_increment := 0x7FFE0000 }
  else { s with phase_increment := phase_increment }

/-- Member `void amplitude(float n)` (header lines 193-200). -/
def amplitude (P : Platform) (n : CFloat) (s : AudioSynthWaveformModulated B) :
    AudioSynthWaveformModulated B :=
  let n := if n.lt 0 then CFloat.finite 0 else if n.gt 1 then CFloat.finite 1 else n
  { s with magnitude := floatToInt32 P (n.mul 65536) }

end AudioSynthWaveformModulated

/-! ## `class BandLimitedWaveform` -/

/-- The struct `step_state` (header lines 54-58). -/
structure step_state where
  offset : Int
  positive : Bool
  deriving DecidableEq, Repr

/-- The declared length of `states`, the circular buffer of active steps
(header line 83). -/
def states_length : Nat := 32

/-- The declared length of `cyclic`, the circular buffer of output samples
(header line 86). -/
def cyclic_length : Nat := 16

/-- The private state of `BandLimitedWaveform` (header lines 81-86). -/
structure BandLimitedWaveform where
  phase_word : Nat
  dc_offset : Int
  states : Fin states_length → step_state
  newptr : Int
  delptr : Int
  cyclic : Fin cyclic_length → Int

/-- Modelled from the spec: the body of `BandLimitedWaveform::init_sawtooth`,
which the header only declares.  Section 4.4: initialization "resets internal
accumulator cells and active-event set to empty and seeds the phase baseline".
The accumulator cells are `cyclic`; the active-event set is `states` between the
cursors `delptr` and `newptr`, empty when both cursors are back at the start;
the phase baseline is `phase_word`, seeded from the frequency word by a rule
`phaseBaseline` the specification does not give. -/
def BandLimitedWaveform.init_sawtooth (phaseBaseline : Nat → Nat) (freq_word : Nat)
    (b : BandLimitedWaveform) : BandLimitedWaveform :=
  { b with
    phase_word := phaseBaseline freq_word % 4294967296
    newptr := 0
    delptr := 0
    cyclic := fun _ => 0 }

/-! ## The phase accumulator -/

/-- Modelled from the spec: the per-sample advance of `phase_accumulator`, done in
`update()`, whose body is not in the header.  Section 2: "a wrapping fixed-point
counter advanced once per output sample by a frequency-derived increment". -/
def advance (phase_increment phase_accumulator : Nat) : Nat :=
  (phase_accumulator + phase_increment) % 4294967296

/-- Modelled from the spec: the wrap test of section 4.2, "new accumulated value
is numerically less than the pre-advance value after adding the increment". -/
def wraps (phase_increment phase_accumulator : Nat) : Bool :=
  decide (advance phase_increment phase_accumulator < phase_accumulator)

/-- The accumulator after `N` advances. -/
def advanceN (phase_increment : Nat) : Nat → Nat → Nat
  | 0, phase_accumulator => phase_accumulator
  | N + 1, phase_accumulator =>
      advanceN phase_increment N (advance phase_increment phase_accumulator)

/-- The number of wraps among `N` consecutive advances. -/
def wrapCount (phase_increment : Nat) : Nat → Nat → Nat
  | 0, _ => 0
  | N + 1, phase_accumulator =>
      (if wraps phase_increment phase_accumulator then 1 else 0)
        + wrapCount phase_increment N (advance phase_increment phase_accumulator)

/-! ## Auxiliary facts -/

theorem toUInt32_lt (P : Platform) (x : ℚ) : toUInt32 P x < 4294967296 := by
  unfold toUInt32
  split_ifs with h
  · omega
  · exact Nat.mod_lt _ (by norm_num)

theorem truncToZero_of_nonneg {x : ℚ} (hx : 0 ≤ x) : truncToZero x = ⌊x⌋ := by
  simp [truncToZero, hx]

theorem truncToZero_intCast (k : Int) : truncToZero (k : ℚ) = k := by
  unfold truncToZero
  split_ifs <;> simp

theorem AudioSynthWaveform.frequency_le {B : Type} (P : Platform) (freq : ℚ)
    (s : AudioSynthWaveform B) :
    (AudioSynthWaveform.frequency P freq s).phase_increment ≤ 0x7FFE0000 := by
  unfold AudioSynthWaveform.frequency
  dsimp only
  split_ifs <;> dsimp only <;> omega

theorem AudioSynthWaveformModulated.frequency_le_modulated {B : Type} (P : Platform) (freq : ℚ)
    (s : AudioSynthWaveformModulated B) :
    (AudioSynthWaveformModulated.frequency P freq s).phase_increment ≤ 0x7FFE0000 := by
  unfold AudioSynthWaveformModulated.frequency
  dsimp only
  split_ifs <;> dsimp only <;> omega

/-! ## The frequency ceiling -/

/-- C1: for every `freq`, whatever the sample rate and the platform's treatment of
out-of-range conversions, `frequency(freq)` of either oscillator class leaves a
`phase_increment` of at most `0x7FFE0000`, which is strictly below `2^31`, half
of the `2^32` wrap range of the phase accumulator. -/
theorem frequency_phase_increment_ceiling {B : Type} (P : Platform) (freq : ℚ)
    (s : AudioSynthWaveform B) (m : AudioSynthWaveformModulated B) :
    (AudioSynthWaveform.frequency P freq s).phase_increment ≤ 0x7FFE0000
      ∧ (AudioSynthWaveformModulated.frequency P freq m).phase_increment ≤ 0x7FFE0000
      ∧ (AudioSynthWaveform.frequency P freq s).phase_increment < 2 ^ 31
      ∧ (AudioSynthWaveformModulated.frequency P freq m).phase_increment < 2 ^ 31
      ∧ 2 * 2 ^ 31 = 4294967296 := by
  have h1 := AudioSynthWaveform.frequency_le P freq s
  have h2 := AudioSynthWaveformModulated.frequency_le_modulated P freq m
  refine ⟨h1, h2, ?_, ?_, by norm_num⟩
  · exact lt_of_le_of_lt h1 (by norm_num)
  · exact lt_of_le_of_lt h2 (by norm_num)

/-- C10: `AudioSynthWaveform::frequency(freq)` writes `phase_increment` and nothing
else: every other member, the state of the band-limited core included, keeps its
value, so a frequency change does not re-initialise the core. -/
theorem frequency_changes_only_phase_increment {B : Type} (P : Platform) (freq : ℚ)
    (s : AudioSynthWaveform B) :
    (AudioSynthWaveform.frequency P freq s).phase_accumulator = s.phase_accumulator
      ∧ (AudioSynthWaveform.frequency P freq s).phase_offset = s.phase_offset
      ∧ (AudioSynthWaveform.frequency P freq s).magnitude = s.magnitude
      ∧ (AudioSynthWaveform.frequency P freq s).pulse_width = s.pulse_width
      ∧ (AudioSynthWaveform.frequency P freq s).tone_type = s.tone_type
      ∧ (AudioSynthWaveform.frequency P freq s).tone_offset = s.tone_offset
      ∧ (AudioSynthWaveform.frequency P freq s).sample = s.sample
      ∧ (AudioSynthWaveform.frequency P freq s).arbdata = s.arbdata
      ∧ (AudioSynthWaveform.frequency P freq s).band_limit_waveform = s.band_limit_waveform
      ∧ AudioSynthWaveform.frequency P freq s
          = { s with phase_increment := (AudioSynthWaveform.frequency P freq s).phase_increment } := by
  unfold AudioSynthWaveform.frequency
  dsimp only
  split_ifs <;> exact ⟨rfl, rfl, rfl, rfl, rfl, rfl, rfl, rfl, rfl, rfl⟩

/-! ## Selection of the band-limited core by `begin` -/

/-- C3: `AudioSynthWaveform::begin(t_type)` stores `t_type` in `tone_type`; over any
core it applies `init_square` exactly for `WAVEFORM_BANDLIMIT_SQUARE`,
`init_sawtooth` exactly for the two band-limited sawtooth types, and leaves the
core untouched for every other type; the frequency word passed is the
`phase_increment` held at the call.  On the recording core the calls made are
one `init_square`, one `init_sawtooth` or none, never both. -/
theorem begin_selects_core_init {B : Type} (ops : BandLimitedOps B) (t_type : Int)
    (s : AudioSynthWaveform B) (r : AudioSynthWaveform (List CoreCall)) :
    (AudioSynthWaveform.begin ops t_type s).tone_type = t_type
      ∧ (t_type = WAVEFORM_BANDLIMIT_SQUARE →
          (AudioSynthWaveform.begin ops t_type s).band_limit_waveform
            = ops.init_square s.phase_increment s.band_limit_waveform)
      ∧ (t_type = WAVEFORM_BANDLIMIT_SAWTOOTH ∨ t_type = WAVEFORM_BANDLIMIT_SAWTOOTH_REVERSE →
          (AudioSynthWaveform.begin ops t_type s).band_limit_waveform
            = ops.init_sawtooth s.phase_increment s.band_limit_waveform)
      ∧ (t_type ≠ WAVEFORM_BANDLIMIT_SQUARE ∧ t_type ≠ WAVEFORM_BANDLIMIT_SAWTOOTH
            ∧ t_type ≠ WAVEFORM_BANDLIMIT_SAWTOOTH_REVERSE →
          (AudioSynthWaveform.begin ops t_type s).band_limit_waveform = s.band_limit_waveform)
      ∧ (AudioSynthWaveform.begin recordingCore t_type r).band_limit_waveform
          = r.band_limit_waveform ++
              (if t_type = WAVEFORM_BANDLIMIT_SQUARE then
                [CoreCall.init_square r.phase_increment]
              else if t_type = WAVEFORM_BANDLIMIT_SAWTOOTH
                  ∨ t_type = WAVEFORM_BANDLIMIT_SAWTOOTH_REVERSE then
                [CoreCall.init_sawtooth r.phase_increment]
              else [])
      ∧ ((∃ w, CoreCall.init_square w ∈
              (AudioSynthWaveform.begin recordingCore t_type
                { r with band_limit_waveform := [] }).band_limit_waveform)
          ↔ t_type = WAVEFORM_BANDLIMIT_SQUARE)
      ∧ ((∃ w, CoreCall.init_sawtooth w ∈
              (AudioSynthWaveform.begin recordingCore t_type
                { r with band_limit_waveform := [] }).band_limit_waveform)
          ↔ (t_type = WAVEFORM_BANDLIMIT_SAWTOOTH
              ∨ t_type = WAVEFORM_BANDLIMIT_SAWTOOTH_REVERSE)) := by
  unfold AudioSynthWaveform.begin
  simp only [WAVEFORM_BANDLIMIT_SQUARE, WAVEFORM_BANDLIMIT_SAWTOOTH,
    WAVEFORM_BANDLIMIT_SAWTOOTH_REVERSE, recordingCore]
  by_cases h11 : t_type = 11
  · subst h11
    simp
  · by_cases h9 : t_type = 9
    · subst h9
      simp
    · by_cases h10 : t_type = 10
      · subst h10
        simp
      · simp [h11, h9, h10]

/-! ## The ceiling as an invariant of the oscillator object -/

theorem AudioSynthWaveform.begin_phase_increment {B : Type} (ops : BandLimitedOps B)
    (t_type : Int) (s : AudioSynthWaveform B) :
    (AudioSynthWaveform.begin ops t_type s).phase_increment = s.phase_increment := by
  unfold AudioSynthWaveform.begin
  dsimp only
  split_ifs <;> rfl

theorem AudioSynthWaveform.begin_recorded (t_type : Int)
    (r : AudioSynthWaveform (List CoreCall)) :
    (AudioSynthWaveform.begin recordingCore t_type r).band_limit_waveform = r.band_limit_waveform
      ∨ (AudioSynthWaveform.begin recordingCore t_type r).band_limit_waveform
          = r.band_limit_waveform ++ [CoreCall.init_square r.phase_increment]
      ∨ (AudioSynthWaveform.begin recordingCore t_type r).band_limit_waveform
          = r.band_limit_waveform ++ [CoreCall.init_sawtooth r.phase_increment] := by
  unfold AudioSynthWaveform.begin
  simp only [WAVEFORM_BANDLIMIT_SQUARE, WAVEFORM_BANDLIMIT_SAWTOOTH,
    WAVEFORM_BANDLIMIT_SAWTOOTH_REVERSE, recordingCore]
  by_cases h11 : t_type = 11
  · subst h11
    simp
  · by_cases h9 : t_type = 9
    · subst h9
      simp
    · by_cases h10 : t_type = 10
      · subst h10
        simp
      · simp [h11, h9, h10]

theorem AudioSynthWaveform.step_phase_increment_le {B : Type} (P : Platform)
    (ops : BandLimitedOps B) (s : AudioSynthWaveform B) (c : AudioSynthWaveform.Call)
    (h : s.phase_increment ≤ 0x7FFE0000) :
    (AudioSynthWaveform.step P ops s c).phase_increment ≤ 0x7FFE0000 := by
  cases c with
  | frequency freq => exact AudioSynthWaveform.frequency_le P freq s
  | phase angle =>
      simp only [AudioSynthWaveform.step, AudioSynthWaveform.phase]
      split <;> exact h
  | amplitude n => exact h
  | offset n => exact h
  | pulseWidth n => exact h
  | arbitraryWaveform data maxFreq => exact h
  | begin t_type =>
      simp only [AudioSynthWaveform.step, AudioSynthWaveform.begin_phase_increment]
      exact h
  | begin_amp_freq_type t_amp t_freq t_type =>
      simp only [AudioSynthWaveform.step, AudioSynthWaveform.begin_amp_freq_type,
        AudioSynthWaveform.begin_phase_increment]
      exact AudioSynthWaveform.frequency_le P t_freq _

theorem AudioSynthWaveform.begin_clamped (t_type : Int)
    (r : AudioSynthWaveform (List CoreCall)) (h : AudioSynthWaveform.Clamped r) :
    AudioSynthWaveform.Clamped (AudioSynthWaveform.begin recordingCore t_type r) := by
  refine ⟨?_, ?_⟩
  · rw [AudioSynthWaveform.begin_phase_increment]
    exact h.1
  · intro c hc
    rcases AudioSynthWaveform.begin_recorded t_type r with e | e | e
    · rw [e] at hc
      exact h.2 c hc
    · rw [e, List.mem_append, List.mem_singleton] at hc
      rcases hc with hc | hc
      · exact h.2 c hc
      · subst hc
        exact h.1
    · rw [e, List.mem_append, List.mem_singleton] at hc
      rcases hc with hc | hc
      · exact h.2 c hc
      · subst hc
        exact h.1

theorem AudioSynthWaveform.step_clamped (P : Platform)
    (r : AudioSynthWaveform (List CoreCall)) (c : AudioSynthWaveform.Call)
    (h : AudioSynthWaveform.Clamped r) :
    AudioSynthWaveform.Clamped (AudioSynthWaveform.step P recordingCore r c) := by
  cases c with
  | frequency freq =>
      refine ⟨AudioSynthWaveform.frequency_le P freq r, ?_⟩
      simp only [AudioSynthWaveform.step, AudioSynthWaveform.frequency]
      split_ifs <;> exact h.2
  | phase angle =>
      simp only [AudioSynthWaveform.step, AudioSynthWaveform.phase]
      split <;> exact h
  | amplitude n => exact h
  | offset n => exact h
  | pulseWidth n => exact h
  | arbitraryWaveform data maxFreq => exact h
  | begin t_type => exact AudioSynthWaveform.begin_clamped t_type r h
  | begin_amp_freq_type t_amp t_freq t_type =>
      simp only [AudioSynthWaveform.step, AudioSynthWaveform.begin_amp_freq_type]
      apply AudioSynthWaveform.begin_clamped
      refine ⟨AudioSynthWaveform.frequency_le P t_freq _, ?_⟩
      simp only [AudioSynthWaveform.frequency, AudioSynthWaveform.amplitude]
      split_ifs <;> exact h.2

theorem AudioSynthWaveform.foldl_phase_increment_le {B : Type} (P : Platform)
    (ops : BandLimitedOps B) (calls : List AudioSynthWaveform.Call) :
    ∀ s : AudioSynthWaveform B, s.phase_increment ≤ 0x7FFE0000 →
      (calls.foldl (AudioSynthWaveform.step P ops) s).phase_increment ≤ 0x7FFE0000 := by
  induction calls with
  | nil => intro s h; exact h
  | cons c cs ih =>
      intro s h
      exact ih _ (AudioSynthWaveform.step_phase_increment_le P ops s c h)

theorem AudioSynthWaveform.foldl_clamped (P : Platform)
    (calls : List AudioSynthWaveform.Call) :
    ∀ r : AudioSynthWaveform (List CoreCall), AudioSynthWaveform.Clamped r →
      AudioSynthWaveform.Clamped (calls.foldl (AudioSynthWaveform.step P recordingCore) r) := by
  induction calls with
  | nil => intro r h; exact h
  | cons c cs ih =>
      intro r h
      exact ih _ (AudioSynthWaveform.step_clamped P r c h)

/-- C2: in every state an `AudioSynthWaveform` reaches from its constructor by any
sequence of `frequency`, `phase`, `amplitude`, `offset`, `pulseWidth`,
`arbitraryWaveform` and `begin` calls (both overloads), over any band-limited
core, `phase_increment` is at most `0x7FFE0000`; and every frequency word that
such a run passes to `init_sawtooth` or `init_square`, as recorded by the
recording core, is at most `0x7FFE0000`. -/
theorem reachable_phase_increment_clamped {B : Type} (P : Platform) (ops : BandLimitedOps B)
    (calls : List AudioSynthWaveform.Call) :
    (AudioSynthWaveform.run P ops calls).phase_increment ≤ 0x7FFE0000
      ∧ ∀ c ∈ (AudioSynthWaveform.run P recordingCore calls).band_limit_waveform,
          c.freq_word ≤ 0x7FFE0000 := by
  refine ⟨?_, ?_⟩
  · exact AudioSynthWaveform.foldl_phase_increment_le P ops calls _ (by simp [AudioSynthWaveform.new])
  · have h := AudioSynthWaveform.foldl_clamped P calls (AudioSynthWaveform.new recordingCore)
      ⟨by simp [AudioSynthWaveform.new], by simp [AudioSynthWaveform.new, recordingCore]⟩
    exact h.2

/-! ## The band-limited core -/

/-- C6: the `states` array of `BandLimitedWaveform`, the active-event set, has 32
slots and the `cyclic` output buffer, the correction window, has 16 cells, so
the capacity is at least the window. -/
theorem states_capacity_covers_window :
    cyclic_length ≤ states_length ∧ states_length = 32 ∧ cyclic_length = 16 := by
  decide

/-- C8: for every `BandLimitedWaveform` state and every frequency word `w`,
`init_sawtooth(w)` applied twice in a row gives the same state, field by field,
as `init_sawtooth(w)` applied once. -/
theorem init_sawtooth_idempotent (phaseBaseline : Nat → Nat) (w : Nat)
    (b : BandLimitedWaveform) :
    BandLimitedWaveform.init_sawtooth phaseBaseline w
        (BandLimitedWaveform.init_sawtooth phaseBaseline w b)
      = BandLimitedWaveform.init_sawtooth phaseBaseline w b := by
  rfl

/-! ## Wraps of the phase accumulator -/

theorem advance_lt (inc ph : Nat) : advance inc ph < 4294967296 := by
  unfold advance
  exact Nat.mod_lt _ (by norm_num)

theorem advance_add_wrap (inc ph : Nat) (hinc : inc < 4294967296) (hph : ph < 4294967296) :
    ph + inc = 4294967296 * (if wraps inc ph then 1 else 0) + advance inc ph := by
  unfold wraps advance
  by_cases h : ph + inc < 4294967296
  · rw [Nat.mod_eq_of_lt h]
    have : ¬ (ph + inc < ph) := by omega
    simp [this]
  · have h2 : (ph + inc) % 4294967296 = ph + inc - 4294967296 := by
      rw [Nat.mod_eq_sub_mod (by omega), Nat.mod_eq_of_lt (by omega)]
    rw [h2]
    have : ph + inc - 4294967296 < ph := by omega
    simp only [this, decide_True, if_true]
    omega

theorem wrapCount_total (inc : Nat) (hinc : inc < 4294967296) (N : Nat) :
    ∀ ph : Nat, ph < 4294967296 →
      ph + N * inc = 4294967296 * wrapCount inc N ph + advanceN inc N ph := by
  induction N with
  | zero => intro ph _; simp [wrapCount, advanceN]
  | succ N ih =>
      intro ph hph
      have h1 := advance_add_wrap inc ph hinc hph
      have h2 := ih (advance inc ph) (advance_lt inc ph)
      simp only [wrapCount, advanceN]
      rw [Nat.succ_mul, Nat.mul_add]
      omega

theorem advanceN_lt (inc : Nat) (N : Nat) :
    ∀ ph : Nat, ph < 4294967296 → advanceN inc N ph < 4294967296 := by
  induction N with
  | zero => intro ph h; exact h
  | succ N ih => intro ph _; exact ih _ (advance_lt inc ph)

/-- C7: for every frequency word `inc` with `inc ≤ 0x7FFE0000`, every starting
phase below `2^32` and every `N`, the number of wraps among `N` advances
`phase <- (phase + inc) mod 2^32` is `floor(N * inc / 2^32)` or that plus one. -/
theorem wrapCount_within_one (inc ph N : Nat) (hinc : inc ≤ 0x7FFE0000)
    (hph : ph < 4294967296) :
    N * inc / 4294967296 ≤ wrapCount inc N ph
      ∧ wrapCount inc N ph ≤ N * inc / 4294967296 + 1 := by
  have htot := wrapCount_total inc (by omega) N ph hph
  have hlt := advanceN_lt inc N ph hph
  have hdiv := Nat.div_add_mod (N * inc) 4294967296
  have hmod := Nat.mod_lt (N * inc) (show 0 < 4294967296 by norm_num)
  generalize N * inc = t at htot hdiv hmod ⊢
  omega

/-- C7 at a concrete input, where the count is the floor plus one: three advances
by the ceiling word from phase `0xFFFFFFFF` wrap twice, and
`floor(3 * 0x7FFE0000 / 2^32) = 1`. -/
theorem wrapCount_within_one_witness :
    wrapCount 0x7FFE0000 3 0xFFFFFFFF = 2
      ∧ 3 * 0x7FFE0000 / 4294967296 = 1
      ∧ 3 * 0x7FFE0000 / 4294967296 ≤ wrapCount 0x7FFE0000 3 0xFFFFFFFF
      ∧ wrapCount 0x7FFE0000 3 0xFFFFFFFF ≤ 3 * 0x7FFE0000 / 4294967296 + 1 :=
  ⟨by decide, by decide,
    (wrapCount_within_one 0x7FFE0000 0xFFFFFFFF 3 (by decide) (by decide)).1,
    (wrapCount_within_one 0x7FFE0000 0xFFFFFFFF 3 (by decide) (by decide)).2⟩

/-! ## Amplitude -/

theorem toInt32_unit_scaled (P : Platform) (n : ℚ) (h0 : 0 ≤ n) (h1 : n ≤ 1) :
    toInt32 P (n * 65536) = ⌊n * 65536⌋ ∧ 0 ≤ ⌊n * 65536⌋ ∧ ⌊n * 65536⌋ ≤ 65536 := by
  have hx0 : (0 : ℚ) ≤ n * 65536 := by positivity
  have hx1 : n * 65536 ≤ ((65536 : Int) : ℚ) := by
    push_cast
    nlinarith
  have hf0 : 0 ≤ ⌊n * 65536⌋ := Int.floor_nonneg.mpr hx0
  have hf1 : ⌊n * 65536⌋ ≤ 65536 := by
    have := Int.floor_le_floor hx1
    rwa [Int.floor_intCast] at this
  refine ⟨?_, hf0, hf1⟩
  unfold toInt32
  rw [truncToZero_of_nonneg hx0]
  rw [if_pos ⟨by omega, by omega⟩]

theorem clamp_unit_cases (n : ℚ) :
    (if n < 0 then (0 : ℚ) else if n > 1 then 1 else n) = clamp n 0 1
      ∧ 0 ≤ clamp n 0 1 ∧ clamp n 0 1 ≤ 1
      ∧ (n < 0 → clamp n 0 1 = 0) ∧ (1 < n → clamp n 0 1 = 1) := by
  unfold clamp
  by_cases h0 : n < 0
  · have hmin : min n 1 = n := min_eq_left (by linarith)
    have hmax : max 0 n = 0 := max_eq_left (le_of_lt h0)
    simp [h0, hmin, hmax]
    linarith
  · by_cases h1 : 1 < n
    · have hmin : min n 1 = 1 := min_eq_right (le_of_lt h1)
      simp [h0, h1, hmin]
    · have hmin : min n 1 = n := min_eq_left (not_lt.mp h1)
      have hmax : max 0 n = n := max_eq_right (not_lt.mp h0)
      simp [h0, h1, hmin, hmax]
      exact ⟨not_lt.mp h0, not_lt.mp h1⟩

theorem amplitude_guards_finite (q : ℚ) :
    (if CFloat.lt (CFloat.finite q) 0 then CFloat.finite 0
      else if CFloat.gt (CFloat.finite q) 1 then CFloat.finite 1 else CFloat.finite q)
      = CFloat.finite (clamp q 0 1) := by
  obtain ⟨hc, -⟩ := clamp_unit_cases q
  rw [← hc]
  simp only [CFloat.lt, CFloat.gt, decide_eq_true_eq]
  split_ifs <;> rfl

theorem floatToInt32_unit_scaled (P : Platform) (q : ℚ) :
    floatToInt32 P (CFloat.mul (CFloat.finite (clamp q 0 1)) 65536)
        = truncToZero (clamp q 0 1 * 65536)
      ∧ 0 ≤ truncToZero (clamp q 0 1 * 65536)
      ∧ truncToZero (clamp q 0 1 * 65536) ≤ 65536 := by
  obtain ⟨-, h0, h1, -⟩ := clamp_unit_cases q
  obtain ⟨hconv, hf0, hf1⟩ := toInt32_unit_scaled P (clamp q 0 1) h0 h1
  have htr : truncToZero (clamp q 0 1 * 65536) = ⌊clamp q 0 1 * 65536⌋ :=
    truncToZero_of_nonneg (by positivity)
  simp only [CFloat.mul, floatToInt32]
  rw [htr, hconv]
  exact ⟨rfl, hf0, hf1⟩

theorem truncToZero_unit_ends :
    truncToZero ((0 : ℚ) * 65536) = 0 ∧ truncToZero ((1 : ℚ) * 65536) = 65536 := by
  have h0 : ((0 : ℚ) * 65536) = ((0 : Int) : ℚ) := by norm_num
  have h1 : ((1 : ℚ) * 65536) = ((65536 : Int) : ℚ) := by norm_num
  rw [h0, h1, truncToZero_intCast, truncToZero_intCast]
  exact ⟨rfl, rfl⟩

/-- The value the clamp of `amplitude` stores for an input that is not NaN: the
body of the member sees its guards decide as on the clamped value. -/
theorem amplitude_value_of_not_nan (P : Platform) (n : CFloat) (hn : n ≠ CFloat.nan) :
    ∃ c : ℚ, clampFloat n 0 1 = some c
      ∧ floatToInt32 P (CFloat.mul
          (if n.lt 0 then CFloat.finite 0 else if n.gt 1 then CFloat.finite 1 else n) 65536)
          = truncToZero (c * 65536)
      ∧ 0 ≤ truncToZero (c * 65536) ∧ truncToZero (c * 65536) ≤ 65536
      ∧ (n.lt 0 = true → truncToZero (c * 65536) = 0)
      ∧ (n.gt 1 = true → truncToZero (c * 65536) = 65536) := by
  cases n with
  | finite q =>
      obtain ⟨-, -, -, hneg, hbig⟩ := clamp_unit_cases q
      obtain ⟨hv, hf0, hf1⟩ := floatToInt32_unit_scaled P q
      refine ⟨clamp q 0 1, rfl, ?_, hf0, hf1, ?_, ?_⟩
      · rw [amplitude_guards_finite q]
        exact hv
      · intro h
        simp only [CFloat.lt, decide_eq_true_eq] at h
        rw [hneg h]
        exact truncToZero_unit_ends.1
      · intro h
        simp only [CFloat.gt, decide_eq_true_eq] at h
        rw [hbig h]
        exact truncToZero_unit_ends.2
  | posInf =>
      refine ⟨1, rfl, ?_, ?_, ?_, ?_, ?_⟩
      · simp only [CFloat.lt, CFloat.gt, CFloat.mul, floatToInt32, if_true,
          Bool.false_eq_true, if_false]
        have h := toInt32_unit_scaled P 1 (by norm_num) (le_refl _)
        rw [h.1, ← truncToZero_of_nonneg (by norm_num)]
      · rw [truncToZero_unit_ends.2]
        decide
      · rw [truncToZero_unit_ends.2]
      · intro h
        simp [CFloat.lt] at h
      · intro _
        exact truncToZero_unit_ends.2
  | negInf =>
      refine ⟨0, rfl, ?_, ?_, ?_, ?_, ?_⟩
      · simp only [CFloat.lt, CFloat.mul, floatToInt32, if_true]
        have h := toInt32_unit_scaled P 0 (le_refl _) (by norm_num)
        rw [h.1, ← truncToZero_of_nonneg (by norm_num)]
      · rw [truncToZero_unit_ends.1]
      · rw [truncToZero_unit_ends.1]
        decide
      · intro _
        exact truncToZero_unit_ends.1
      · intro h
        simp [CFloat.gt] at h
  | nan => exact absurd rfl hn

/-- For every input other than NaN, infinities included, `amplitude(n)` of either
oscillator class stores `magnitude = trunc(clamp(n, 0, 1) * 65536)`: `0` for
every `n < 0`, `65536` for every `n > 1`, and always a value from `0` to
`65536`. -/
theorem amplitude_magnitude_of_not_nan {B : Type} (P : Platform) (n : CFloat)
    (s : AudioSynthWaveform B) (m : AudioSynthWaveformModulated B) (hn : n ≠ CFloat.nan) :
    some (AudioSynthWaveform.amplitude P n s).magnitude
        = (clampFloat n 0 1).map (fun c => truncToZero (c * 65536))
      ∧ some (AudioSynthWaveformModulated.amplitude P n m).magnitude
          = (clampFloat n 0 1).map (fun c => truncToZero (c * 65536))
      ∧ (n.lt 0 = true → (AudioSynthWaveform.amplitude P n s).magnitude = 0
          ∧ (AudioSynthWaveformModulated.amplitude P n m).magnitude = 0)
      ∧ (n.gt 1 = true → (AudioSynthWaveform.amplitude P n s).magnitude = 65536
          ∧ (AudioSynthWaveformModulated.amplitude P n m).magnitude = 65536)
      ∧ 0 ≤ (AudioSynthWaveform.amplitude P n s).magnitude
      ∧ (AudioSynthWaveform.amplitude P n s).magnitude ≤ 65536
      ∧ 0 ≤ (AudioSynthWaveformModulated.amplitude P n m).magnitude
      ∧ (AudioSynthWaveformModulated.amplitude P n m).magnitude ≤ 65536 := by
  obtain ⟨c, hc, hv, h0, h1, hneg, hbig⟩ := amplitude_value_of_not_nan P n hn
  have hs : (AudioSynthWaveform.amplitude P n s).magnitude = truncToZero (c * 65536) := hv
  have hm : (AudioSynthWaveformModulated.amplitude P n m).magnitude
      = truncToZero (c * 65536) := hv
  rw [hs, hm, hc]
  exact ⟨rfl, rfl, fun h => ⟨hneg h, hneg h⟩, fun h => ⟨hbig h, hbig h⟩, h0, h1, h0, h1⟩

/-- C5 at the input NaN: both guards of the clamp are false, so on every platform
`amplitude(NaN)` of either class stores the platform's result of converting NaN
to `int32_t`; on the platform whose failed conversions give `-2147483648` the
stored `magnitude` is `-2147483648`, below `0`.  For every input other than
NaN the stored value is `trunc(clamp(n, 0, 1) * 65536)`, from `0` to `65536`,
`0` for every `n < 0` and `65536` for every `n > 1`. -/
theorem amplitude_nan_not_clamped :
    CFloat.lt CFloat.nan 0 = false ∧ CFloat.gt CFloat.nan 1 = false
      ∧ (∀ (P : Platform) (s : AudioSynthWaveform (List CoreCall))
            (m : AudioSynthWaveformModulated (List CoreCall)),
          (AudioSynthWaveform.amplitude P CFloat.nan s).magnitude
              = Int.bmod (P.nonFiniteInt32 CFloat.nan) 4294967296
            ∧ (AudioSynthWaveformModulated.amplitude P CFloat.nan m).magnitude
              = Int.bmod (P.nonFiniteInt32 CFloat.nan) 4294967296)
      ∧ (AudioSynthWaveform.amplitude indefinitePlatform CFloat.nan
          (AudioSynthWaveform.new recordingCore)).magnitude = -2147483648
      ∧ (AudioSynthWaveformModulated.amplitude indefinitePlatform CFloat.nan
          (AudioSynthWaveformModulated.new recordingCore (none, none) [])).magnitude
          = -2147483648
      ∧ ¬ (0 ≤ (AudioSynthWaveform.amplitude indefinitePlatform CFloat.nan
          (AudioSynthWaveform.new recordingCore)).magnitude)
      ∧ ¬ (0 ≤ (AudioSynthWaveformModulated.amplitude indefinitePlatform CFloat.nan
          (AudioSynthWaveformModulated.new recordingCore (none, none) [])).magnitude)
      ∧ (∀ (P : Platform) (n : CFloat) (s : AudioSynthWaveform (List CoreCall))
            (m : AudioSynthWaveformModulated (List CoreCall)), n ≠ CFloat.nan →
          some (AudioSynthWaveform.amplitude P n s).magnitude
              = (clampFloat n 0 1).map (fun c => truncToZero (c * 65536))
            ∧ some (AudioSynthWaveformModulated.amplitude P n m).magnitude
              = (clampFloat n 0 1).map (fun c => truncToZero (c * 65536))
            ∧ (n.lt 0 = true → (AudioSynthWaveform.amplitude P n s).magnitude = 0
                ∧ (AudioSynthWaveformModulated.amplitude P n m).magnitude = 0)
            ∧ (n.gt 1 = true → (AudioSynthWaveform.amplitude P n s).magnitude = 65536
                ∧ (AudioSynthWaveformModulated.amplitude P n m).magnitude = 65536)
            ∧ 0 ≤ (AudioSynthWaveform.amplitude P n s).magnitude
            ∧ (AudioSynthWaveform.amplitude P n s).magnitude ≤ 65536
            ∧ 0 ≤ (AudioSynthWaveformModulated.amplitude P n m).magnitude
            ∧ (AudioSynthWaveformModulated.amplitude P n m).magnitude ≤ 65536) := by
  have hs : (AudioSynthWaveform.amplitude indefinitePlatform CFloat.nan
      (AudioSynthWaveform.new recordingCore)).magnitude = -2147483648 := by
    show Int.bmod (-2147483648) 4294967296 = -2147483648
    decide
  have hm : (AudioSynthWaveformModulated.amplitude indefinitePlatform CFloat.nan
      (AudioSynthWaveformModulated.new recordingCore (none, none) [])).magnitude
      = -2147483648 := by
    show Int.bmod (-2147483648) 4294967296 = -2147483648
    decide
  refine ⟨rfl, rfl, fun P s m => ⟨rfl, rfl⟩, hs, hm, ?_, ?_, ?_⟩
  · rw [hs]
    decide
  · rw [hm]
    decide
  · intro P n s m hn
    exact amplitude_magnitude_of_not_nan P n s m hn

/-! ## Pulse width -/

/-- C9 at the input `n = 1.0`: the value `pulseWidth` computes is `2^32`, one past
the largest `uint32_t`; the same holds for every `n ≥ 1`, while every `n < 1`
gives a value from `0` to `2^32 - 1`; and what `pulse_width` holds after
`pulseWidth(1.0)` is whatever the platform makes of the out-of-range conversion. -/
theorem pulseWidth_one_not_representable :
    truncToZero (AudioSynthWaveform.pulseWidthValue 1) = 4294967296
      ∧ ¬ (truncToZero (AudioSynthWaveform.pulseWidthValue 1) ≤ 4294967295)
      ∧ (∀ n : ℚ, 1 ≤ n → truncToZero (AudioSynthWaveform.pulseWidthValue n) = 4294967296)
      ∧ (∀ n : ℚ, n < 1 → 0 ≤ truncToZero (AudioSynthWaveform.pulseWidthValue n)
          ∧ truncToZero (AudioSynthWaveform.pulseWidthValue n) ≤ 4294967295)
      ∧ (∀ (P : Platform) (s : AudioSynthWaveform (List CoreCall)),
          (AudioSynthWaveform.pulseWidth P 1 s).pulse_width
            = P.outOfRangeUInt32 4294967296 % 4294967296) := by
  have key : ∀ n : ℚ, 1 ≤ n → AudioSynthWaveform.pulseWidthValue n = ((4294967296 : Int) : ℚ) := by
    intro n hn
    unfold AudioSynthWaveform.pulseWidthValue
    have h0 : ¬ n < 0 := by linarith
    by_cases h1 : n > 1
    · simp only [h0, h1, if_true, if_false]
      norm_num
    · have : n = 1 := le_antisymm (not_lt.mp h1) hn
      subst this
      simp only [h0, h1, if_false]
      norm_num
  have k1 := key 1 (le_refl _)
  refine ⟨?_, ?_, ?_, ?_, ?_⟩
  · rw [k1, truncToZero_intCast]
  · rw [k1, truncToZero_intCast]
    decide
  · intro n hn
    rw [key n hn, truncToZero_intCast]
  · intro n hn
    have hv : (0 : ℚ) ≤ AudioSynthWaveform.pulseWidthValue n
        ∧ AudioSynthWaveform.pulseWidthValue n < ((4294967296 : Int) : ℚ) := by
      unfold AudioSynthWaveform.pulseWidthValue
      have h1 : ¬ n > 1 := by
        intro h
        linarith
      by_cases h0 : n < 0
      · simp only [h0, if_true]
        norm_num
      · simp only [h0, h1, if_false]
        push_cast
        constructor
        · linarith
        · linarith
    rw [truncToZero_of_nonneg hv.1]
    have hf0 := Int.floor_nonneg.mpr hv.1
    have hf1 := Int.floor_lt.mpr hv.2
    omega
  · intro P s
    simp only [AudioSynthWaveform.pulseWidth, toUInt32]
    rw [k1, truncToZero_intCast]
    simp

/-! ## Phase angle -/

theorem AudioSynthWaveform.phaseAngle_neg {angle : ℚ} (h : angle < 0) :
    AudioSynthWaveform.phaseAngle angle = some 0 := by
  simp [AudioSynthWaveform.phaseAngle, h]

theorem AudioSynthWaveform.phaseAngle_wrap {angle : ℚ} (h1 : 360 < angle) (h2 : angle < 720) :
    AudioSynthWaveform.phaseAngle angle = some (angle - 360) := by
  have h0 : ¬ angle < 0 := by linarith
  have h3 : ¬ (360 ≤ angle - 360) := by linarith
  simp [AudioSynthWaveform.phaseAngle, h0, h1, h3]

theorem AudioSynthWaveform.phaseAngle_reject {angle : ℚ} (h : 720 ≤ angle) :
    AudioSynthWaveform.phaseAngle angle = none := by
  have h0 : ¬ angle < 0 := by linarith
  have h1 : 360 < angle := by linarith
  have h3 : 360 ≤ angle - 360 := by linarith
  simp [AudioSynthWaveform.phaseAngle, h0, h1, h3]

theorem AudioSynthWaveform.phaseAngle_inside {angle : ℚ} (h0 : 0 ≤ angle) (h1 : angle ≤ 360) :
    AudioSynthWaveform.phaseAngle angle = some angle := by
  have h0 : ¬ angle < 0 := by linarith
  have h1 : ¬ 360 < angle := by linarith
  simp [AudioSynthWaveform.phaseAngle, h0, h1]

theorem toUInt32_intCast (P : Platform) (k : Int) (h0 : 0 ≤ k) (h1 : k < 4294967296) :
    toUInt32 P (k : ℚ) = k.toNat := by
  unfold toUInt32
  rw [truncToZero_intCast, if_pos ⟨h0, h1⟩]

theorem toUInt32_angle_in_range (P : Platform) (a : ℚ) (h0 : 0 ≤ a) (h1 : a < 360) :
    toUInt32 P (a * (4294967296 / 360)) = (truncToZero (a * (4294967296 / 360))).toNat := by
  have hx0 : (0 : ℚ) ≤ a * (4294967296 / 360) := by positivity
  have hx1 : a * (4294967296 / 360) < ((4294967296 : Int) : ℚ) := by
    push_cast
    linarith
  have hf0 : 0 ≤ ⌊a * (4294967296 / 360)⌋ := Int.floor_nonneg.mpr hx0
  have hf1 : ⌊a * (4294967296 / 360)⌋ < 4294967296 := Int.floor_lt.mpr hx1
  unfold toUInt32
  rw [truncToZero_of_nonneg hx0, if_pos ⟨hf0, hf1⟩]

/-- C4 refuted: above 360 degrees `phase` does not saturate.  On the saturating
platform, from the object the constructor builds, `phase(450)` stores `2^30`,
the offset `phase(90)` stores, and `phase(540)` stores `2^31`, so the stored
offset is not one fixed upper-limit value; and `phase(720)` after `phase(90)`
leaves the object, `phase_offset = 2^30` included, exactly as it was. -/
theorem phase_above_360_not_saturated :
    (AudioSynthWaveform.phase saturatingPlatform 450
        (AudioSynthWaveform.new recordingCore)).phase_offset = 1073741824
      ∧ (AudioSynthWaveform.phase saturatingPlatform 90
        (AudioSynthWaveform.new recordingCore)).phase_offset = 1073741824
      ∧ (AudioSynthWaveform.phase saturatingPlatform 540
        (AudioSynthWaveform.new recordingCore)).phase_offset = 2147483648
      ∧ AudioSynthWaveform.phase saturatingPlatform 720
          (AudioSynthWaveform.phase saturatingPlatform 90 (AudioSynthWaveform.new recordingCore))
        = AudioSynthWaveform.phase saturatingPlatform 90 (AudioSynthWaveform.new recordingCore)
      ∧ ¬ (∀ (angle : ℚ) (s : AudioSynthWaveform (List CoreCall)), 360 < angle →
            (AudioSynthWaveform.phase saturatingPlatform angle s).phase_offset
              = (AudioSynthWaveform.phase saturatingPlatform 360 s).phase_offset) := by
  have e450 : (AudioSynthWaveform.phase saturatingPlatform 450
        (AudioSynthWaveform.new recordingCore)).phase_offset = 1073741824 := by
    have ha : AudioSynthWaveform.phaseAngle 450 = some (450 - 360) :=
      AudioSynthWaveform.phaseAngle_wrap (by norm_num) (by norm_num)
    have hv : ((450 : ℚ) - 360) * (4294967296 / 360) = ((1073741824 : Int) : ℚ) := by norm_num
    simp only [AudioSynthWaveform.phase, ha, hv]
    rw [toUInt32_intCast _ _ (by decide) (by decide)]
    rfl
  have e90 : (AudioSynthWaveform.phase saturatingPlatform 90
        (AudioSynthWaveform.new recordingCore)).phase_offset = 1073741824 := by
    have ha : AudioSynthWaveform.phaseAngle 90 = some 90 :=
      AudioSynthWaveform.phaseAngle_inside (by norm_num) (by norm_num)
    have hv : (90 : ℚ) * (4294967296 / 360) = ((1073741824 : Int) : ℚ) := by norm_num
    simp only [AudioSynthWaveform.phase, ha, hv]
    rw [toUInt32_intCast _ _ (by decide) (by decide)]
    rfl
  have e540 : (AudioSynthWaveform.phase saturatingPlatform 540
        (AudioSynthWaveform.new recordingCore)).phase_offset = 2147483648 := by
    have ha : AudioSynthWaveform.phaseAngle 540 = some (540 - 360) :=
      AudioSynthWaveform.phaseAngle_wrap (by norm_num) (by norm_num)
    have hv : ((540 : ℚ) - 360) * (4294967296 / 360) = ((2147483648 : Int) : ℚ) := by norm_num
    simp only [AudioSynthWaveform.phase, ha, hv]
    rw [toUInt32_intCast _ _ (by decide) (by decide)]
    rfl
  refine ⟨e450, e90, e540, ?_, ?_⟩
  · have ha : AudioSynthWaveform.phaseAngle 720 = none :=
      AudioSynthWaveform.phaseAngle_reject (le_refl _)
    simp only [AudioSynthWaveform.phase, ha]
  · intro h
    have h1 := h 450 (AudioSynthWaveform.new recordingCore) (by norm_num)
    have h2 := h 540 (AudioSynthWaveform.new recordingCore) (by norm_num)
    rw [e450] at h1
    rw [e540, ← h1] at h2
    exact absurd h2 (by decide)

/-- C4 as amended: for every negative angle `phase` stores the offset of 0 degrees,
which is `0`; for every angle above 360 and below 720 it stores the offset of
`angle - 360` degrees, `trunc((angle - 360) * 2^32 / 360)`, the value
`phase(angle - 360)` stores; for every angle of 720 or more it returns without
storing and the object is unchanged. -/
theorem phase_outside_domain {B : Type} (P : Platform) (angle : ℚ) (s : AudioSynthWaveform B) :
    (angle < 0 →
        (AudioSynthWaveform.phase P angle s).phase_offset = 0
          ∧ AudioSynthWaveform.phase P angle s = AudioSynthWaveform.phase P 0 s)
      ∧ (360 < angle → angle < 720 →
        (AudioSynthWaveform.phase P angle s).phase_offset
            = (truncToZero ((angle - 360) * (4294967296 / 360))).toNat
          ∧ AudioSynthWaveform.phase P angle s = AudioSynthWaveform.phase P (angle - 360) s)
      ∧ (720 ≤ angle → AudioSynthWaveform.phase P angle s = s) := by
  refine ⟨?_, ?_, ?_⟩
  · intro h
    have h0 : AudioSynthWaveform.phaseAngle 0 = some 0 :=
      AudioSynthWaveform.phaseAngle_inside (le_refl _) (by norm_num)
    have hz : toUInt32 P (0 * (4294967296 / 360)) = 0 := by
      have : (0 : ℚ) * (4294967296 / 360) = ((0 : Int) : ℚ) := by norm_num
      rw [this, toUInt32_intCast _ _ (by decide) (by decide)]
      rfl
    simp only [AudioSynthWaveform.phase, AudioSynthWaveform.phaseAngle_neg h, h0, hz]
    exact ⟨trivial, trivial⟩
  · intro h1 h2
    have hin : AudioSynthWaveform.phaseAngle (angle - 360) = some (angle - 360) :=
      AudioSynthWaveform.phaseAngle_inside (by linarith) (by linarith)
    simp only [AudioSynthWaveform.phase, AudioSynthWaveform.phaseAngle_wrap h1 h2, hin]
    exact ⟨toUInt32_angle_in_range P (angle - 360) (by linarith) (by linarith), trivial⟩
  · intro h
    simp only [AudioSynthWaveform.phase, AudioSynthWaveform.phaseAngle_reject h]

/-- C4 as amended, at the angles -30, 450 and 720 on the object that `phase(90)`
leaves after the constructor. -/
theorem phase_outside_domain_witness :
    (AudioSynthWaveform.phase saturatingPlatform (-30)
        (AudioSynthWaveform.phase saturatingPlatform 90
          (AudioSynthWaveform.new recordingCore))).phase_offset = 0
      ∧ AudioSynthWaveform.phase saturatingPlatform 450
          (AudioSynthWaveform.phase saturatingPlatform 90 (AudioSynthWaveform.new recordingCore))
        = AudioSynthWaveform.phase saturatingPlatform (450 - 360)
          (AudioSynthWaveform.phase saturatingPlatform 90 (AudioSynthWaveform.new recordingCore))
      ∧ AudioSynthWaveform.phase saturatingPlatform 720
          (AudioSynthWaveform.phase saturatingPlatform 90 (AudioSynthWaveform.new recordingCore))
        = AudioSynthWaveform.phase saturatingPlatform 90 (AudioSynthWaveform.new recordingCore) :=
  ⟨((phase_outside_domain saturatingPlatform (-30) _).1 (by norm_num)).1,
   ((phase_outside_domain saturatingPlatform 450 _).2.1 (by norm_num) (by norm_num)).2,
   (phase_outside_domain saturatingPlatform 720 _).2.2 (le_refl _)⟩

end TeensyAudio
